import Mathlib

/-! Verification of the PR-Insight-Bot script (src/ci_cd_assistant.py) against its
natural-language specification.  The Python source is shallowly embedded:
pure string-building functions become Lean functions on `String` / `List Char`,
the four outbound HTTP calls become an oracle record, and process behaviour
(printed messages, attempted network calls, exit code) is an explicit result
triple.  Python strings are modelled by Lean `String` (both are sequences of
unicode code points, and Python `len` / slicing count code points).
-/

namespace PRInsight

/-- Model of one element of the JSON array returned by the PR files endpoint.
The script reads exactly two keys from each record, via `f.get("filename",
"<unknown>")` and `f.get("patch")`; an absent (or JSON-null) key is `none`. -/
structure FileChange where
  filename : Option String
  patch : Option String

/-- Source constant `MAX_DIFF_CHARS = 20000`. -/
def MAX_DIFF_CHARS : Nat := 20000

/-- Python truthiness of an optional string (`if patch:` and `if not VAR`):
`None` and the empty string are falsy, every other string is truthy. -/
def pyTruthy (o : Option String) : Bool := o.getD "" ≠ ""

/-- Model of Python `sep.join(parts)`. -/
def pyJoin (sep : String) : List String → String
  | [] => ""
  | [x] => x
  | x :: y :: ys => x ++ sep ++ pyJoin sep (y :: ys)

/-- Model of the Python slice `s[:n]` (first `n` code points). -/
def strTake (s : String) (n : Nat) : String := ⟨s.data.take n⟩

/-- Source line 59: `header = f"\n\n# File: {filename}\n"`. -/
def fileHeader (f : FileChange) : String :=
  "\n\n# File: " ++ f.filename.getD "<unknown>" ++ "\n"

/-- Source line 63: the placeholder emitted when a file has no usable patch. -/
def noPatchPlaceholder (f : FileChange) : String :=
  "[no patch available for " ++ f.filename.getD "<unknown>" ++ " (binary or too large)]"

/-- Source lines 56-63: the entry appended to `parts` for one file record.
`if patch:` takes the patch branch exactly when the patch is present and
non-empty. -/
def filePart (f : FileChange) : String :=
  if pyTruthy f.patch then fileHeader f ++ f.patch.getD ""
  else fileHeader f ++ noPatchPlaceholder f

/-- Source line 67: the fixed truncation suffix. -/
def TRUNC_SUFFIX : String := "\n\n...[diff truncated]..."

/-- Source line 64: `full = "\n".join(parts)` — the joined, untruncated diff. -/
def fullDiff (files : List FileChange) : String :=
  pyJoin "\n" (files.map filePart)

/-- Source lines 54-69, `build_diff_text(files_json, max_chars)`: join the
per-file parts with a newline; if the joined text is strictly longer than
`max_chars`, keep the first `max_chars` code points and append the fixed
truncation suffix. -/
def build_diff_text (files : List FileChange) (max_chars : Nat) : String :=
  let full := fullDiff files
  if max_chars < full.length then strTake full max_chars ++ TRUNC_SUFFIX
  else full

/-- A concrete patch of 20001 characters, exceeding the diff budget alone. -/
def bigPatch : String := ⟨List.replicate 20001 'a'⟩

/-- A concrete single-file input whose patch alone exceeds the diff budget. -/
def bigFiles : List FileChange := [⟨some "f", some bigPatch⟩]

/-- A concrete two-file input far below the diff budget. -/
def smallFiles : List FileChange :=
  [⟨some "a.py", some "+x"⟩, ⟨some "b.py", some "-y"⟩]

/-! JSON values.

Model of the values produced by decoding a JSON document (the bodies of the
HTTP responses).  Objects are the already-decoded dictionaries, so keys are
unique; numbers are modelled as integers, which covers the fields the script
reads.  The mutual presentation keeps structural recursion simple. -/

mutual

inductive Json where
  | null : Json
  | bool (b : Bool) : Json
  | num (n : Int) : Json
  | str (s : String) : Json
  | arr (xs : JsonList) : Json
  | obj (fs : JsonObj) : Json

inductive JsonList where
  | nil : JsonList
  | cons (hd : Json) (tl : JsonList) : JsonList

inductive JsonObj where
  | nil : JsonObj
  | cons (k : String) (v : Json) (tl : JsonObj) : JsonObj

end

/-- Dictionary lookup `j[k]` as used on decoded JSON: succeeds only on an
object that has the key. -/
def jsonObjLookup : JsonObj → String → Option Json
  | .nil, _ => none
  | .cons k v tl, key => if k = key then some v else jsonObjLookup tl key

/-- Python `j[k]` on a decoded JSON value: a KeyError or TypeError becomes
`none` (the script catches every exception on this path). -/
def Json.lookup : Json → String → Option Json
  | .obj fs, key => jsonObjLookup fs key
  | _, _ => none

/-- Python `j[0]` on a decoded JSON value, `none` when it raises.  Indexing a
string would yield a one-character string on which the subsequent key lookup
always raises, so mapping it to `none` here is behaviour-equivalent. -/
def Json.index0 : Json → Option Json
  | .arr (.cons x _) => some x
  | _ => none

/-- Source line 119: the guarded extraction
`res["choices"][0]["message"]["content"]`; `none` exactly when the Python
expression raises (the `except` branch). -/
def extractContent (res : Json) : Option Json :=
  (((res.lookup "choices").bind Json.index0).bind
    (fun m => m.lookup "message")).bind
    (fun m => m.lookup "content")

/-- A single apostrophe, kept out of the surrounding string literals. -/
def sq : String := String.singleton (Char.ofNat 39)

/-- Spaces used by the serializer for one indentation level. -/
def spaces (n : Nat) : String := ⟨List.replicate n ' '⟩

/-- Escaping of one character inside a JSON string literal, as `json.dumps`
performs it for ASCII data. -/
def jsonEscChar (c : Char) : String :=
  if c = '"' then "\\\""
  else if c = '\\' then "\\\\"
  else if c = '\n' then "\\n"
  else if c = '\t' then "\\t"
  else if c = '\r' then "\\r"
  else String.singleton c

/-- A JSON string literal with quotes, as `json.dumps` renders it. -/
def jsonQuote (s : String) : String :=
  "\"" ++ String.join (s.data.map jsonEscChar) ++ "\""

mutual

/-- Model of `json.dumps(j, indent=2)` at nesting depth `ind`: scalars are
rendered inline, non-empty arrays and objects put every item on its own line
indented two further spaces, with `", "`-free separators `",\n"` and the key
separator `": "`. -/
def jsonDumpsAt : Json → Nat → String
  | .null, _ => "null"
  | .bool true, _ => "true"
  | .bool false, _ => "false"
  | .num n, _ => toString n
  | .str s, _ => jsonQuote s
  | .arr .nil, _ => "[]"
  | .arr (.cons x tl), ind =>
    "[\n" ++ jsonDumpsItems (.cons x tl) (ind + 2) ++ "\n" ++ spaces ind ++ "]"
  | .obj .nil, _ => "\x7b\x7d"
  | .obj (.cons k v tl), ind =>
    "\x7b\n" ++ jsonDumpsFields (.cons k v tl) (ind + 2) ++ "\n" ++ spaces ind ++ "\x7d"

def jsonDumpsItems : JsonList → Nat → String
  | .nil, _ => ""
  | .cons x .nil, ind => spaces ind ++ jsonDumpsAt x ind
  | .cons x (.cons y tl), ind =>
    spaces ind ++ jsonDumpsAt x ind ++ ",\n" ++ jsonDumpsItems (.cons y tl) ind

def jsonDumpsFields : JsonObj → Nat → String
  | .nil, _ => ""
  | .cons k v .nil, ind => spaces ind ++ jsonQuote k ++ ": " ++ jsonDumpsAt v ind
  | .cons k v (.cons k2 v2 tl), ind =>
    spaces ind ++ jsonQuote k ++ ": " ++ jsonDumpsAt v ind ++ ",\n"
      ++ jsonDumpsFields (.cons k2 v2 tl) ind

end

/-- Source line 122: `json.dumps(res, indent=2)`. -/
def jsonDumps (j : Json) : String := jsonDumpsAt j 0

mutual

/-- Python `repr` of a decoded JSON value (used by `str` on containers). -/
def jsonPyRepr : Json → String
  | .null => "None"
  | .bool true => "True"
  | .bool false => "False"
  | .num n => toString n
  | .str s => sq ++ s ++ sq
  | .arr xs => "[" ++ jsonPyReprItems xs ++ "]"
  | .obj fs => "\x7b" ++ jsonPyReprFields fs ++ "\x7d"

def jsonPyReprItems : JsonList → String
  | .nil => ""
  | .cons x .nil => jsonPyRepr x
  | .cons x (.cons y tl) => jsonPyRepr x ++ ", " ++ jsonPyReprItems (.cons y tl)

def jsonPyReprFields : JsonObj → String
  | .nil => ""
  | .cons k v .nil => sq ++ k ++ sq ++ ": " ++ jsonPyRepr v
  | .cons k v (.cons k2 v2 tl) =>
    sq ++ k ++ sq ++ ": " ++ jsonPyRepr v ++ ", " ++ jsonPyReprFields (.cons k2 v2 tl)

end

/-- Python `str` of a decoded JSON value: the string itself for strings,
`repr`-style rendering otherwise (f-string interpolation of the value). -/
def jsonPyStr : Json → String
  | .str s => s
  | j => jsonPyRepr j

/-- Source lines 116-123, the pure tail of `call_deepseek` applied to the
decoded response body: extract `choices[0].message.content` and fall back to
the serialized raw response when the shape is unexpected.  The function is
total — the Python `try/except` means no exception escapes this step. -/
def call_deepseek_extract (res : Json) : String :=
  match extractContent res with
  | some c => jsonPyStr c
  | none => jsonDumps res

/-! Model of textwrap.dedent and build_prompt.

`build_prompt` (source lines 71-98) interpolates the title, body and diff
into a triple-quoted f-string and passes the result through
`textwrap.dedent`.  The interpolation happens before dedenting, so the
inserted values take part in margin computation.  `dedent` is modelled after
its documented CPython behaviour: whitespace-only lines are normalized to
empty lines, the longest common leading whitespace of all other lines is the
margin, and the margin is stripped from every line that starts with it. -/

def isWsChar (c : Char) : Bool := c = ' ' || c = '\t'

/-- Python `text.split("\n")` on the underlying character list. -/
def splitLines : List Char → List (List Char)
  | [] => [[]]
  | c :: cs =>
    if c = '\n' then [] :: splitLines cs
    else
      match splitLines cs with
      | [] => [[c]]
      | l :: ls => (c :: l) :: ls

/-- Python `"\n".join` on line lists. -/
def joinLines : List (List Char) → List Char
  | [] => []
  | [l] => l
  | l :: l2 :: ls => l ++ '\n' :: joinLines (l2 :: ls)

/-- A line of one or more spaces and tabs only (regex `^[ \t]+$`). -/
def wsOnlyLine (l : List Char) : Bool := !l.isEmpty && l.all isWsChar

/-- First pass of dedent: whitespace-only lines become empty lines. -/
def normLine (l : List Char) : List Char := if wsOnlyLine l then [] else l

/-- Longest common prefix of two character lists (margin combination). -/
def sharedStart : List Char → List Char → List Char
  | x :: xs, y :: ys => if x = y then x :: sharedStart xs ys else []
  | _, _ => []

/-- Boolean prefix test, first argument the candidate prefix. -/
def startsWithL : List Char → List Char → Bool
  | [], _ => true
  | _ :: _, [] => false
  | x :: xs, y :: ys => x = y && startsWithL xs ys

/-- Strip the margin from a line when the line starts with it. -/
def stripMargin (m l : List Char) : List Char :=
  if startsWithL m l then l.drop m.length else l

/-- The leading whitespace of every normalized line that has content. -/
def indentsOf (L : List (List Char)) : List (List Char) :=
  (L.filter (fun l => !l.isEmpty)).map (fun l => l.takeWhile isWsChar)

/-- First stage of dedent: split into lines and normalize whitespace-only
lines to empty ones. -/
def dedentLines1 (text : String) : List (List Char) :=
  (splitLines text.data).map normLine

/-- The margin: the longest common leading whitespace of the content lines. -/
def dedentMargin (L : List (List Char)) : List Char :=
  match indentsOf L with
  | [] => []
  | i :: is => is.foldl sharedStart i

/-- Model of `textwrap.dedent`: normalize whitespace-only lines, compute the
margin, and strip it from every line that starts with it. -/
def dedent (text : String) : String :=
  ⟨joinLines
    (if (dedentMargin (dedentLines1 text)).isEmpty then dedentLines1 text
     else (dedentLines1 text).map (stripMargin (dedentMargin (dedentLines1 text))))⟩

/-- The f-string text before the `{pr_title}` slot (source lines 73-88). -/
def segA : String :=
  "\n    You are a helpful CI assistant. Given a pull request title, description and code diff, do the following:\n\n    1) Produce an improved PR description (clear, 2-4 sentences).\n    2) Provide a short human-readable summary of the code changes (3-6 sentences).\n    3) Suggest tests / checks that appear to be missing or desirable (bullet list).\n    4) Provide any quick code quality notes (possible bugs, style issues, risky changes).\n    \n    Reply in Markdown. Use headings:\n    ## Improved PR Description\n    ## Summary\n    ## Suggested Tests\n    ## Notes\n\n    PR Title:\n    "

/-- The f-string text between `{pr_title}` and `{pr_body}`. -/
def segB : String := "\n\n    PR Description:\n    "

/-- The f-string text between `{pr_body}` and `{diff_text}`. -/
def segC : String := "\n\n    Diff (truncated):\n    "

/-- The f-string text after `{diff_text}` (source lines 95-97). -/
def segD : String := "\n\n    IMPORTANT: Keep the answer concise and practical.\n    "

/-- The interpolated f-string of source lines 73-97, before dedenting. -/
def promptRaw (pr_title pr_body diff_text : String) : String :=
  segA ++ pr_title ++ segB ++ pr_body ++ segC ++ diff_text ++ segD

/-- Source lines 71-98, `build_prompt`. -/
def build_prompt (pr_title pr_body diff_text : String) : String :=
  dedent (promptRaw pr_title pr_body diff_text)

/-! Lemmas about lines, margins and containment. -/

/-- Substring containment on character lists. -/
def containsL (big small : List Char) : Prop := ∃ u v, big = u ++ small ++ v

/-- Substring containment on strings (code-point level). -/
def strContains (big small : String) : Prop := containsL big.data small.data

/-- Lines followed by explicit newlines, in front of a remainder. -/
def prependLines (ls : List (List Char)) (r : List Char) : List Char :=
  ls.foldr (fun l acc => l ++ '\n' :: acc) r

/-! The template as line lists. -/

/-- The four-space indentation used by every content line of the template. -/
def sp4 : List Char := [' ', ' ', ' ', ' ']

/-- The full lines of `segA` (the text before the `{pr_title}` slot). -/
def LAlines : List (List Char) :=
  [[],
   "    You are a helpful CI assistant. Given a pull request title, description and code diff, do the following:".data,
   [],
   "    1) Produce an improved PR description (clear, 2-4 sentences).".data,
   "    2) Provide a short human-readable summary of the code changes (3-6 sentences).".data,
   "    3) Suggest tests / checks that appear to be missing or desirable (bullet list).".data,
   "    4) Provide any quick code quality notes (possible bugs, style issues, risky changes).".data,
   "    ".data,
   "    Reply in Markdown. Use headings:".data,
   "    ## Improved PR Description".data,
   "    ## Summary".data,
   "    ## Suggested Tests".data,
   "    ## Notes".data,
   [],
   "    PR Title:".data]

/-- The full lines of `segB`, after its leading newline. -/
def LBlines : List (List Char) := [[], "    PR Description:".data]

/-- The full lines of `segC`, after its leading newline. -/
def LClines : List (List Char) := [[], "    Diff (truncated):".data]

/-- The full lines of `segD`, after its leading newline. -/
def LDlines : List (List Char) :=
  [[], "    IMPORTANT: Keep the answer concise and practical.".data]

/-- The interpolated template text as nested line blocks around the slots. -/
def rawChars (t b d : List Char) : List Char :=
  prependLines LAlines
    ((sp4 ++ t) ++ '\n' :: prependLines LBlines
      ((sp4 ++ b) ++ '\n' :: prependLines LClines
        ((sp4 ++ d) ++ '\n' :: prependLines LDlines sp4)))

/-- A value whose interpolation commutes with dedenting: it spans a single
line and is either empty or carries at least one non-whitespace character. -/
def promptSafe (v : String) : Prop :=
  '\n' ∉ v.data ∧ (v.data = [] ∨ ∃ c ∈ v.data, isWsChar c = false)

/-- The dedented template text before the title slot. -/
def promptPre : String :=
  "\nYou are a helpful CI assistant. Given a pull request title, description and code diff, do the following:\n\n1) Produce an improved PR description (clear, 2-4 sentences).\n2) Provide a short human-readable summary of the code changes (3-6 sentences).\n3) Suggest tests / checks that appear to be missing or desirable (bullet list).\n4) Provide any quick code quality notes (possible bugs, style issues, risky changes).\n\nReply in Markdown. Use headings:\n## Improved PR Description\n## Summary\n## Suggested Tests\n## Notes\n\nPR Title:\n"

/-- The dedented template text between the title and body slots. -/
def promptMid1 : String := "\n\nPR Description:\n"

/-- The dedented template text between the body and diff slots. -/
def promptMid2 : String := "\n\nDiff (truncated):\n"

/-- The dedented template text after the diff slot. -/
def promptSuf : String := "\n\nIMPORTANT: Keep the answer concise and practical.\n"

/-- The content line that is always present, fixing the head of the indents. -/
def youAreLine : List Char :=
  "    You are a helpful CI assistant. Given a pull request title, description and code diff, do the following:".data

/-- Decidable substring scan used to refute containment at concrete inputs. -/
def containsB (small : List Char) : List Char → Bool
  | [] => small.isEmpty
  | c :: tl => startsWithL small (c :: tl) || containsB small tl

/-! Process model.

The script is a straight line: a module-level environment check, then `main`
performing four blocking HTTP round-trips inside one `try/except`.  We model
a run as the list of printed messages, the list of attempted outbound calls
(recorded whether or not the call succeeds), and the process exit code. -/

/-- The four environment variables read at source lines 28-31 (`os.getenv`
yields `None` for an unset variable). -/
structure EnvVars where
  GITHUB_REPOSITORY : Option String
  GITHUB_TOKEN : Option String
  PR_NUMBER : Option String
  OPENROUTER_API_KEY : Option String

/-- Outcome of one HTTP round-trip, as `main` distinguishes them:
a decoded 2xx body, an `HTTPError` from `raise_for_status` (carrying the
status code and response text), or any other exception (network failure,
timeout, JSON decode error) carrying its message. -/
inductive CallResult (α : Type) where
  | ok (a : α) : CallResult α
  | httpError (status : Nat) (body : String) : CallResult α
  | exn (msg : String) : CallResult α

/-- The two fields `main` reads from the PR metadata response, via
`pr.get("title", "")` and `pr.get("body", "") or ""` (absent or JSON-null
collapse to `none`). -/
structure PrMeta where
  title : Option String
  body : Option String

/-- Responses of the four outbound calls, in program order: PR metadata, PR
file list (already decoded into the two fields the script reads), the model
endpoint, and the comment-creation endpoint. -/
structure Network where
  prMeta : CallResult PrMeta
  prFiles : CallResult (List FileChange)
  chat : CallResult Json
  comment : CallResult Json

/-- One attempted outbound HTTP call; the two POSTs record their payloads. -/
inductive NetCall where
  | getMeta : NetCall
  | getFiles : NetCall
  | postChat (prompt : String) : NetCall
  | postComment (body : String) : NetCall

/-- Result of one process run: printed messages in order, attempted network
calls in order, and the exit code. -/
structure RunResult where
  msgs : List String
  calls : List NetCall
  exitCode : Nat

/-- Source line 34: the diagnostic printed when configuration is missing. -/
def envMissingMsg : String :=
  "ERROR: required environment variables missing. Ensure GITHUB_REPOSITORY, GITHUB_TOKEN, PR_NUMBER, and OPENROUTER_API_KEY are set."

/-- Source line 160: `print("HTTP error:", exc.response.status_code, exc.response.text)`. -/
def httpErrorMsg (status : Nat) (body : String) : String :=
  "HTTP error: " ++ toString status ++ " " ++ body

/-- Source line 163: `print("Error:", str(e))`. -/
def genErrorMsg (msg : String) : String := "Error: " ++ msg

/-- Source lines 147-153: the posted comment body assembled around the model
reply (the header contains the double-encoded emoji exactly as the source
file does, and the trailing note an apostrophe). -/
def commentBody (prTitle aiResponse : String) : String :=
  "## ðŸ¤– CI/CD Assistant Review\n\n**PR:** " ++ prTitle
    ++ "\n\n**AI analysis:**\n\n" ++ aiResponse
    ++ "\n\n*(This comment was generated automatically by the repository"
    ++ sq ++ "s CI/CD Assistant)*"

/-- Source lines 133-164, `main`, given the PR number and the network
responses.  Each branch mirrors the `try/except` structure: an `HTTPError`
or other exception from a call aborts the pipeline with exit code 1 after
printing the corresponding message; a full pass prints the progress messages
and returns normally (exit code 0). -/
def mainRun (prNumber : String) (net : Network) : RunResult :=
  let m0 := ["Fetching PR #" ++ prNumber ++ " meta..."]
  match net.prMeta with
  | .httpError st b => ⟨m0 ++ [httpErrorMsg st b], [.getMeta], 1⟩
  | .exn e => ⟨m0 ++ [genErrorMsg e], [.getMeta], 1⟩
  | .ok pr =>
    let prTitle := pr.title.getD ""
    let prBody := pr.body.getD ""
    let m1 := m0 ++ ["Fetching PR file patches..."]
    match net.prFiles with
    | .httpError st b => ⟨m1 ++ [httpErrorMsg st b], [.getMeta, .getFiles], 1⟩
    | .exn e => ⟨m1 ++ [genErrorMsg e], [.getMeta, .getFiles], 1⟩
    | .ok files =>
      let diffText := build_diff_text files MAX_DIFF_CHARS
      let prompt := build_prompt prTitle prBody diffText
      let m2 := m1 ++ ["Calling DeepSeek for analysis (via OpenRouter)..."]
      match net.chat with
      | .httpError st b =>
        ⟨m2 ++ [httpErrorMsg st b], [.getMeta, .getFiles, .postChat prompt], 1⟩
      | .exn e =>
        ⟨m2 ++ [genErrorMsg e], [.getMeta, .getFiles, .postChat prompt], 1⟩
      | .ok res =>
        let aiResponse := call_deepseek_extract res
        let body := commentBody prTitle aiResponse
        let m3 := m2 ++ ["Posting comment to PR..."]
        match net.comment with
        | .httpError st b =>
          ⟨m3 ++ [httpErrorMsg st b],
            [.getMeta, .getFiles, .postChat prompt, .postComment body], 1⟩
        | .exn e =>
          ⟨m3 ++ [genErrorMsg e],
            [.getMeta, .getFiles, .postChat prompt, .postComment body], 1⟩
        | .ok post =>
          ⟨m3 ++ ["Posted comment id: " ++ jsonPyStr ((post.lookup "id").getD .null),
              "Done."],
            [.getMeta, .getFiles, .postChat prompt, .postComment body], 0⟩

/-- Source lines 28-35 composed with `main`: the module-level check runs
before any network activity, printing the diagnostic and exiting with status
1 when any of the four variables is unset or empty (Python falsiness). -/
def runScript (env : EnvVars) (net : Network) : RunResult :=
  if pyTruthy env.GITHUB_REPOSITORY && pyTruthy env.GITHUB_TOKEN
      && pyTruthy env.PR_NUMBER && pyTruthy env.OPENROUTER_API_KEY then
    mainRun (env.PR_NUMBER.getD "") net
  else ⟨[envMissingMsg], [], 1⟩

/-- A network oracle on which every call would succeed. -/
def okNet : Network :=
  ⟨.ok ⟨some "Fix bug", some "Adds a test"⟩,
    .ok [⟨some "a.py", some "+x"⟩],
    .ok (.obj (.cons "choices"
      (.arr (.cons (.obj (.cons "message"
        (.obj (.cons "content" (.str "Looks good") .nil)) .nil)) .nil)) .nil)),
    .ok (.obj (.cons "id" (.num 7) .nil))⟩

/-- A concrete model response with no `choices` field. -/
def badRes : Json := .obj (.cons "error" (.str "rate limited") .nil)

example : build_diff_text [⟨some "a.py", some "+x"⟩] MAX_DIFF_CHARS
    = "\n\n# File: a.py\n+x" := by decide

example : build_diff_text [⟨some "img.png", none⟩] MAX_DIFF_CHARS
    = "\n\n# File: img.png\n[no patch available for img.png (binary or too large)]" := by
  decide

example : build_diff_text [⟨some "a", some "x"⟩, ⟨some "b", some "y"⟩] MAX_DIFF_CHARS
    = "\n\n# File: a\nx\n\n\n# File: b\ny" := by decide

/-! Basic string lemmas. -/

lemma strTake_length (s : String) (n : Nat) : (strTake s n).length = min n s.length := by
  show (s.data.take n).length = min n s.data.length
  exact List.length_take n s.data

lemma strTake_length_of_le (s : String) (n : Nat) (h : n ≤ s.length) :
    (strTake s n).length = n := by
  rw [strTake_length]; exact Nat.min_eq_left h

/-- Every element of a joined list occurs verbatim inside the join. -/
lemma pyJoin_contains (sep : String) :
    ∀ (xs : List String), ∀ x ∈ xs, ∃ pre post, pyJoin sep xs = pre ++ x ++ post := by
  intro xs
  induction xs with
  | nil => intro x hx; exact absurd hx (List.not_mem_nil x)
  | cons a tl ih =>
    intro x hx
    cases tl with
    | nil =>
      rcases List.mem_singleton.mp hx with rfl
      exact ⟨"", "", by simp [pyJoin, String.append_empty]⟩
    | cons b bs =>
      rcases List.mem_cons.mp hx with rfl | hmem
      · exact ⟨"", sep ++ pyJoin sep (b :: bs), by
          simp [pyJoin, String.append_assoc]⟩
      · rcases ih x hmem with ⟨pre, post, hpre⟩
        refine ⟨a ++ sep ++ pre, post, ?_⟩
        simp [pyJoin, hpre, String.append_assoc]

/-- When its patch is present and non-empty, the part for a file is its header
followed by the patch verbatim. -/
lemma filePart_of_patch (f : FileChange) (p : String) (hp : f.patch = some p)
    (hne : p ≠ "") : filePart f = fileHeader f ++ p := by
  simp [filePart, pyTruthy, hp, hne]

/-! Claim theorems about build_diff_text. -/

/-- C1: for every list of file changes whose joined diff text is strictly
longer than 20000 characters, `build_diff_text` returns exactly the first
20000 characters of the joined text followed by the fixed truncation suffix,
so the result length is 20000 plus the suffix length. -/
theorem build_diff_text_truncation_exact (files : List FileChange)
    (h : MAX_DIFF_CHARS < (fullDiff files).length) :
    build_diff_text files MAX_DIFF_CHARS
      = strTake (fullDiff files) MAX_DIFF_CHARS ++ TRUNC_SUFFIX ∧
    (build_diff_text files MAX_DIFF_CHARS).length
      = MAX_DIFF_CHARS + TRUNC_SUFFIX.length := by
  have heq : build_diff_text files MAX_DIFF_CHARS
      = strTake (fullDiff files) MAX_DIFF_CHARS ++ TRUNC_SUFFIX := by
    simp only [build_diff_text, if_pos h]
  refine ⟨heq, ?_⟩
  rw [heq, String.length_append, strTake_length_of_le _ _ (Nat.le_of_lt h)]

lemma bigPatch_length : bigPatch.length = 20001 :=
  List.length_replicate 20001 'a'

lemma bigPatch_ne_empty : bigPatch ≠ "" := by
  intro h
  have h0 : bigPatch.length = 0 := by rw [h]; rfl
  rw [bigPatch_length] at h0
  exact absurd h0 (by decide)

lemma bigFiles_fullDiff_length : (fullDiff bigFiles).length = 20013 := by
  have h1 : fullDiff bigFiles = filePart ⟨some "f", some bigPatch⟩ := rfl
  rw [h1, filePart_of_patch ⟨some "f", some bigPatch⟩ bigPatch rfl bigPatch_ne_empty,
    String.length_append, bigPatch_length]
  have h2 : (fileHeader ⟨some "f", some bigPatch⟩).length = 12 := by
    show ("\n\n# File: " ++ "f" ++ "\n" : String).length = 12
    decide
  rw [h2]

lemma bigFiles_over_budget : MAX_DIFF_CHARS < (fullDiff bigFiles).length := by
  rw [bigFiles_fullDiff_length]; decide

/-- Witness for C1 at the concrete input `bigFiles`. -/
theorem build_diff_text_truncation_exact_witness :
    MAX_DIFF_CHARS < (fullDiff bigFiles).length ∧
    (build_diff_text bigFiles MAX_DIFF_CHARS
        = strTake (fullDiff bigFiles) MAX_DIFF_CHARS ++ TRUNC_SUFFIX ∧
      (build_diff_text bigFiles MAX_DIFF_CHARS).length
        = MAX_DIFF_CHARS + TRUNC_SUFFIX.length) :=
  ⟨bigFiles_over_budget, build_diff_text_truncation_exact bigFiles bigFiles_over_budget⟩

lemma bigFiles_result_length :
    (build_diff_text bigFiles MAX_DIFF_CHARS).length = 20024 := by
  have heq : build_diff_text bigFiles MAX_DIFF_CHARS
      = strTake (fullDiff bigFiles) MAX_DIFF_CHARS ++ TRUNC_SUFFIX := by
    simp only [build_diff_text, if_pos bigFiles_over_budget]
  rw [heq, String.length_append,
    strTake_length_of_le _ _ (Nat.le_of_lt bigFiles_over_budget)]
  decide

/-- C2 counterexample: at the concrete input `bigFiles` the diff text built
with budget 20000 has length 20024, strictly more than 20000, refuting the
claim that the result never exceeds 20000 characters. -/
theorem build_diff_text_budget_counterexample :
    ¬ ((build_diff_text bigFiles MAX_DIFF_CHARS).length ≤ MAX_DIFF_CHARS) := by
  rw [bigFiles_result_length]; decide

/-- C2 (amended): for every list of file changes, the diff text built with
budget 20000 has length at most 20000 plus the length of the fixed truncation
suffix, i.e. at most 20024. -/
theorem build_diff_text_length_bound (files : List FileChange) :
    (build_diff_text files MAX_DIFF_CHARS).length
      ≤ MAX_DIFF_CHARS + TRUNC_SUFFIX.length := by
  by_cases h : MAX_DIFF_CHARS < (fullDiff files).length
  · have heq : build_diff_text files MAX_DIFF_CHARS
        = strTake (fullDiff files) MAX_DIFF_CHARS ++ TRUNC_SUFFIX := by
      simp only [build_diff_text, if_pos h]
    rw [heq, String.length_append, strTake_length_of_le _ _ (Nat.le_of_lt h)]
  · have heq : build_diff_text files MAX_DIFF_CHARS = fullDiff files := by
      simp only [build_diff_text, if_neg h]
    rw [heq]
    exact Nat.le_trans (Nat.not_lt.mp h) (Nat.le_add_right _ _)

/-- C3: for every list of file changes whose joined diff text is within the
20000-character budget, `build_diff_text` returns exactly the newline-join of
the per-file blocks in input order, and hence contains, for every file change
with a present non-empty patch, a header line naming that file followed by
its patch verbatim. -/
theorem build_diff_text_under_budget_blocks (files : List FileChange)
    (h : (fullDiff files).length ≤ MAX_DIFF_CHARS) :
    build_diff_text files MAX_DIFF_CHARS = pyJoin "\n" (files.map filePart) ∧
    ∀ f ∈ files, ∀ p, f.patch = some p → p ≠ "" →
      ∃ pre post,
        build_diff_text files MAX_DIFF_CHARS = pre ++ (fileHeader f ++ p) ++ post := by
  have heq : build_diff_text files MAX_DIFF_CHARS = pyJoin "\n" (files.map filePart) := by
    simp only [build_diff_text, if_neg (Nat.not_lt.mpr h)]
    rfl
  refine ⟨heq, ?_⟩
  intro f hf p hp hne
  rcases pyJoin_contains "\n" (files.map filePart) (filePart f)
      (List.mem_map_of_mem filePart hf) with ⟨pre, post, hdec⟩
  refine ⟨pre, post, ?_⟩
  rw [heq, hdec, filePart_of_patch f p hp hne]

/-- Witness for C3 at the concrete input `smallFiles`. -/
theorem build_diff_text_under_budget_blocks_witness :
    (fullDiff smallFiles).length ≤ MAX_DIFF_CHARS ∧
    (build_diff_text smallFiles MAX_DIFF_CHARS = pyJoin "\n" (smallFiles.map filePart) ∧
      ∀ f ∈ smallFiles, ∀ p, f.patch = some p → p ≠ "" →
        ∃ pre post,
          build_diff_text smallFiles MAX_DIFF_CHARS = pre ++ (fileHeader f ++ p) ++ post) :=
  ⟨by decide, build_diff_text_under_budget_blocks smallFiles (by decide)⟩

/-- C4: a file change with no patch field yields the block consisting of the
header naming the file followed by the unavailability placeholder for that
file; the placeholder is never empty, and whenever the joined diff stays
within the budget the whole block appears verbatim in the output of
`build_diff_text`. -/
theorem build_diff_text_no_patch_placeholder (f : FileChange) (hf : f.patch = none) :
    filePart f = fileHeader f ++ noPatchPlaceholder f ∧
    (noPatchPlaceholder f).length ≠ 0 ∧
    ∀ files, f ∈ files → (fullDiff files).length ≤ MAX_DIFF_CHARS →
      ∃ pre post,
        build_diff_text files MAX_DIFF_CHARS
          = pre ++ (fileHeader f ++ noPatchPlaceholder f) ++ post := by
  have hpart : filePart f = fileHeader f ++ noPatchPlaceholder f := by
    simp [filePart, pyTruthy, hf]
  refine ⟨hpart, ?_, ?_⟩
  · have e1 : ("[no patch available for " : String).length = 24 := by decide
    have h3 : (noPatchPlaceholder f).length
        = ("[no patch available for " : String).length
          + (f.filename.getD "<unknown>").length
          + (" (binary or too large)]" : String).length := by
      simp [noPatchPlaceholder, String.length_append]
    rw [e1] at h3
    omega
  · intro files hmem hlen
    have heq : build_diff_text files MAX_DIFF_CHARS = pyJoin "\n" (files.map filePart) := by
      simp only [build_diff_text, if_neg (Nat.not_lt.mpr hlen)]
      rfl
    rcases pyJoin_contains "\n" (files.map filePart) (filePart f)
        (List.mem_map_of_mem filePart hmem) with ⟨pre, post, hdec⟩
    exact ⟨pre, post, by rw [heq, hdec, hpart]⟩

/-- Witness for C4 at a concrete binary-file record. -/
theorem build_diff_text_no_patch_placeholder_witness :
    (FileChange.mk (some "img.png") none).patch = none ∧
    (filePart ⟨some "img.png", none⟩
        = fileHeader ⟨some "img.png", none⟩ ++ noPatchPlaceholder ⟨some "img.png", none⟩ ∧
      (noPatchPlaceholder ⟨some "img.png", none⟩).length ≠ 0 ∧
      ∀ files, (⟨some "img.png", none⟩ : FileChange) ∈ files →
        (fullDiff files).length ≤ MAX_DIFF_CHARS →
        ∃ pre post,
          build_diff_text files MAX_DIFF_CHARS
            = pre ++ (fileHeader ⟨some "img.png", none⟩
                ++ noPatchPlaceholder ⟨some "img.png", none⟩) ++ post) :=
  ⟨rfl, build_diff_text_no_patch_placeholder ⟨some "img.png", none⟩ rfl⟩

/-- C9: a file change whose patch is present but empty is treated exactly like
one with no patch field: its block is the header followed by the
unavailability placeholder, identical to the block of the patchless record. -/
theorem build_diff_text_empty_patch_placeholder (f : FileChange)
    (hf : f.patch = some "") :
    filePart f = fileHeader f ++ noPatchPlaceholder f ∧
    filePart f = filePart ⟨f.filename, none⟩ := by
  constructor
  · simp [filePart, pyTruthy, hf]
  · simp [filePart, pyTruthy, hf, fileHeader, noPatchPlaceholder]

/-- Witness for C9 at a concrete empty-patch record. -/
theorem build_diff_text_empty_patch_placeholder_witness :
    (FileChange.mk (some "empty.txt") (some "")).patch = some "" ∧
    (filePart ⟨some "empty.txt", some ""⟩
        = fileHeader ⟨some "empty.txt", some ""⟩
          ++ noPatchPlaceholder ⟨some "empty.txt", some ""⟩ ∧
      filePart ⟨some "empty.txt", some ""⟩ = filePart ⟨some "empty.txt", none⟩) :=
  ⟨rfl, build_diff_text_empty_patch_placeholder ⟨some "empty.txt", some ""⟩ rfl⟩

example :
    call_deepseek_extract
      (.obj (.cons "choices"
        (.arr (.cons (.obj (.cons "message"
          (.obj (.cons "content" (.str "hello") .nil)) .nil)) .nil)) .nil))
      = "hello" := rfl

example :
    call_deepseek_extract (.obj (.cons "error" (.str "rate limited") .nil))
      = "\x7b\n  \"error\": \"rate limited\"\n\x7d" := rfl

lemma prependLines_nil (r : List Char) : prependLines [] r = r := rfl

lemma prependLines_cons (l : List Char) (ls : List (List Char)) (r : List Char) :
    prependLines (l :: ls) r = l ++ '\n' :: prependLines ls r := rfl

lemma prependLines_eq_append (ls : List (List Char)) (r : List Char) :
    prependLines ls r = prependLines ls [] ++ r := by
  induction ls with
  | nil => rfl
  | cons l tl ih =>
    rw [prependLines_cons, prependLines_cons, ih, List.append_assoc]
    rfl

lemma splitLines_ne_nil (l : List Char) : splitLines l ≠ [] := by
  cases l with
  | nil => simp [splitLines]
  | cons c cs =>
    unfold splitLines
    by_cases h : c = '\n'
    · simp [h]
    · simp only [h, if_false]
      cases splitLines cs <;> simp

lemma splitLines_newline_cons (r : List Char) :
    splitLines ('\n' :: r) = [] :: splitLines r := by
  simp [splitLines]

lemma splitLines_cons_ne (c : Char) (cs : List Char) (h : c ≠ '\n')
    (a : List Char) (as : List (List Char)) (hsr : splitLines cs = a :: as) :
    splitLines (c :: cs) = (c :: a) :: as := by
  simp only [splitLines]
  rw [if_neg h, hsr]

lemma splitLines_append_no_nl (l r : List Char) (h : '\n' ∉ l) :
    splitLines (l ++ r) = List.modifyHead (fun x => l ++ x) (splitLines r) := by
  induction l with
  | nil =>
    cases hsr : splitLines r with
    | nil => exact absurd hsr (splitLines_ne_nil r)
    | cons a as => exact hsr
  | cons c cs ih =>
    have hc : c ≠ '\n' := fun hc => h (hc ▸ List.mem_cons_self c cs)
    have hcs : '\n' ∉ cs := fun hm => h (List.mem_cons_of_mem c hm)
    have h2 := ih hcs
    cases hsr : splitLines (cs ++ r) with
    | nil => exact absurd hsr (splitLines_ne_nil _)
    | cons a as =>
      rw [List.cons_append, splitLines_cons_ne c (cs ++ r) hc a as hsr]
      rw [hsr] at h2
      cases hsr2 : splitLines r with
      | nil => exact absurd hsr2 (splitLines_ne_nil r)
      | cons b bs =>
        rw [hsr2] at h2
        have h2' : a :: as = (cs ++ b) :: bs := h2
        injection h2' with ha hb
        rw [ha, hb]
        rfl

/-- Splitting a full line followed by a newline peels off that line. -/
lemma splitLines_line_cons (l r : List Char) (h : '\n' ∉ l) :
    splitLines (l ++ '\n' :: r) = l :: splitLines r := by
  rw [splitLines_append_no_nl l ('\n' :: r) h, splitLines_newline_cons]
  simp

lemma splitLines_prependLines (ls : List (List Char)) (r : List Char)
    (h : ∀ l ∈ ls, '\n' ∉ l) :
    splitLines (prependLines ls r) = ls ++ splitLines r := by
  induction ls with
  | nil => rfl
  | cons l tl ih =>
    rw [prependLines_cons,
      splitLines_line_cons l _ (h l (List.mem_cons_self l tl)),
      ih (fun x hx => h x (List.mem_cons_of_mem l hx))]
    rfl

lemma joinLines_cons_of_ne_nil (l : List Char) (ls : List (List Char)) (h : ls ≠ []) :
    joinLines (l :: ls) = l ++ '\n' :: joinLines ls := by
  cases ls with
  | nil => exact absurd rfl h
  | cons a as => rfl

lemma joinLines_append (xs ys : List (List Char)) (h : ys ≠ []) :
    joinLines (xs ++ ys) = prependLines xs (joinLines ys) := by
  induction xs with
  | nil => rfl
  | cons x tl ih =>
    have htl : tl ++ ys ≠ [] := by
      intro hc
      exact h (List.append_eq_nil.mp hc).2
    rw [List.cons_append, joinLines_cons_of_ne_nil x (tl ++ ys) htl, ih,
      prependLines_cons]

/-- Every line occurs verbatim in the joined text. -/
lemma joinLines_containsL (ls : List (List Char)) (l : List Char) (h : l ∈ ls) :
    containsL (joinLines ls) l := by
  induction ls with
  | nil => exact absurd h (List.not_mem_nil l)
  | cons a tl ih =>
    cases tl with
    | nil =>
      rcases List.mem_singleton.mp h with rfl
      exact ⟨[], [], by simp [joinLines]⟩
    | cons b bs =>
      rcases List.mem_cons.mp h with rfl | hmem
      · exact ⟨[], '\n' :: joinLines (b :: bs), by simp [joinLines]⟩
      · rcases ih hmem with ⟨u, v, huv⟩
        refine ⟨a ++ '\n' :: u, v, ?_⟩
        rw [joinLines_cons_of_ne_nil a (b :: bs) (by simp), huv]
        simp

lemma containsL_trans (big mid small : List Char)
    (h1 : containsL big mid) (h2 : containsL mid small) : containsL big small := by
  rcases h1 with ⟨u, v, rfl⟩
  rcases h2 with ⟨u2, v2, rfl⟩
  exact ⟨u ++ u2, v2 ++ v, by simp⟩

lemma startsWithL_append (p w : List Char) : startsWithL p (p ++ w) = true := by
  induction p with
  | nil => rfl
  | cons c cs ih => simpa [startsWithL] using ih

lemma startsWithL_iff (p l : List Char) :
    startsWithL p l = true ↔ ∃ w, l = p ++ w := by
  constructor
  · intro h
    induction p generalizing l with
    | nil => exact ⟨l, rfl⟩
    | cons c cs ih =>
      cases l with
      | nil => simp [startsWithL] at h
      | cons x xs =>
        simp only [startsWithL, Bool.and_eq_true, decide_eq_true_eq] at h
        rcases ih xs h.2 with ⟨w, rfl⟩
        exact ⟨w, by rw [h.1.symm]; rfl⟩
  · rintro ⟨w, rfl⟩
    exact startsWithL_append p w

lemma sharedStart_append (l w : List Char) : sharedStart l (l ++ w) = l := by
  induction l with
  | nil => cases w <;> rfl
  | cons c cs ih => simp [sharedStart, ih]

lemma foldl_sharedStart_of_all (sp : List Char) (is : List (List Char))
    (h : ∀ i ∈ is, startsWithL sp i = true) :
    is.foldl sharedStart sp = sp := by
  induction is with
  | nil => rfl
  | cons i tl ih =>
    rcases (startsWithL_iff sp i).mp (h i (List.mem_cons_self i tl)) with ⟨w, rfl⟩
    rw [List.foldl_cons, sharedStart_append]
    exact ih (fun x hx => h x (List.mem_cons_of_mem _ hx))

/-- The shared start of two lists is a prefix of the first one. -/
lemma sharedStart_startsWith (a b : List Char) :
    startsWithL (sharedStart a b) a = true := by
  induction a generalizing b with
  | nil => cases b <;> rfl
  | cons c cs ih =>
    cases b with
    | nil => rfl
    | cons x xs =>
      by_cases hcx : c = x
      · simpa [sharedStart, hcx, startsWithL] using ih xs
      · simp [sharedStart, hcx, startsWithL]

lemma foldl_sharedStart_startsWith (is : List (List Char)) (sp : List Char) :
    ∃ w, sp = is.foldl sharedStart sp ++ w := by
  induction is generalizing sp with
  | nil => exact ⟨[], by simp⟩
  | cons i tl ih =>
    rcases ih (sharedStart sp i) with ⟨w2, hw2⟩
    rcases (startsWithL_iff _ _).mp (sharedStart_startsWith sp i) with ⟨w1, hw1⟩
    refine ⟨w2 ++ w1, ?_⟩
    rw [List.foldl_cons]
    calc sp = sharedStart sp i ++ w1 := hw1
    _ = (tl.foldl sharedStart (sharedStart sp i) ++ w2) ++ w1 := by rw [← hw2]
    _ = tl.foldl sharedStart (sharedStart sp i) ++ (w2 ++ w1) := List.append_assoc _ _ _

lemma takeWhile_append_of_all (P : Char → Bool) (l1 l2 : List Char)
    (h : ∀ c ∈ l1, P c = true) :
    (l1 ++ l2).takeWhile P = l1 ++ l2.takeWhile P := by
  induction l1 with
  | nil => rfl
  | cons c cs ih =>
    have hc : P c = true := h c (List.mem_cons_self c cs)
    simp only [List.cons_append, List.takeWhile_cons, hc, if_true]
    rw [ih (fun x hx => h x (List.mem_cons_of_mem c hx))]

lemma startsWithL_refl (a : List Char) : startsWithL a a = true := by
  have := startsWithL_append a []
  rwa [List.append_nil] at this

lemma startsWithL_trans (a b c : List Char)
    (h1 : startsWithL a b = true) (h2 : startsWithL b c = true) :
    startsWithL a c = true := by
  rcases (startsWithL_iff a b).mp h1 with ⟨w, rfl⟩
  rcases (startsWithL_iff _ c).mp h2 with ⟨w2, rfl⟩
  rw [List.append_assoc]
  exact startsWithL_append a (w ++ w2)

lemma startsWithL_antisymm (a b : List Char)
    (h1 : startsWithL a b = true) (h2 : startsWithL b a = true) : a = b := by
  rcases (startsWithL_iff a b).mp h1 with ⟨w, rfl⟩
  rcases (startsWithL_iff _ _).mp h2 with ⟨w2, hw2⟩
  have hlen := congrArg List.length hw2
  simp only [List.length_append] at hlen
  have : w.length = 0 := by omega
  rw [List.length_eq_zero.mp this, List.append_nil]

/-- The shared start of two lists is a prefix of the second one. -/
lemma sharedStart_startsWith_right (a b : List Char) :
    startsWithL (sharedStart a b) b = true := by
  induction a generalizing b with
  | nil => cases b <;> rfl
  | cons c cs ih =>
    cases b with
    | nil => rfl
    | cons x xs =>
      by_cases hcx : c = x
      · subst hcx
        simpa [sharedStart, startsWithL] using ih xs
      · simp [sharedStart, hcx, startsWithL]

lemma sharedStart_common_extend (sp x y : List Char) :
    sharedStart (sp ++ x) (sp ++ y) = sp ++ sharedStart x y := by
  induction sp with
  | nil => rfl
  | cons c cs ih => simp [sharedStart, ih]

/-- The fold of `sharedStart` is a common prefix of everything folded. -/
lemma foldl_sharedStart_isCommon (i0 : List Char) (is : List (List Char)) :
    ∀ j ∈ i0 :: is, startsWithL (is.foldl sharedStart i0) j = true := by
  induction is generalizing i0 with
  | nil =>
    intro j hj
    rcases List.mem_singleton.mp hj with rfl
    exact startsWithL_refl j
  | cons i tl ih =>
    intro j hj
    have hhead := ih (sharedStart i0 i) (sharedStart i0 i)
      (List.mem_cons_self _ _)
    rcases List.mem_cons.mp hj with rfl | hj2
    · exact startsWithL_trans _ _ _ hhead (sharedStart_startsWith j i)
    · rcases List.mem_cons.mp hj2 with rfl | hj3
      · exact startsWithL_trans _ _ _ hhead (sharedStart_startsWith_right i0 j)
      · exact ih (sharedStart i0 i) j (List.mem_cons_of_mem _ hj3)

/-- A common prefix of everything folded is a prefix of the fold. -/
lemma foldl_sharedStart_lower (sp : List Char) (i0 : List Char) (is : List (List Char))
    (h0 : startsWithL sp i0 = true) (h : ∀ i ∈ is, startsWithL sp i = true) :
    startsWithL sp (is.foldl sharedStart i0) = true := by
  induction is generalizing i0 with
  | nil => exact h0
  | cons i tl ih =>
    have hi : startsWithL sp i = true := h i (List.mem_cons_self i tl)
    rcases (startsWithL_iff sp i0).mp h0 with ⟨x, rfl⟩
    rcases (startsWithL_iff sp i).mp hi with ⟨y, rfl⟩
    rw [List.foldl_cons, sharedStart_common_extend]
    exact ih _ (startsWithL_append sp _)
      (fun z hz => h z (List.mem_cons_of_mem _ hz))

lemma stripMargin_append (m x : List Char) : stripMargin m (m ++ x) = x := by
  rw [stripMargin, if_pos (startsWithL_append m x), List.drop_left]

lemma stripMargin_nil (m : List Char) : stripMargin m [] = [] := by
  cases m with
  | nil => rfl
  | cons c cs => rfl

set_option maxRecDepth 20000 in
lemma segA_decomp : segA.data = prependLines LAlines sp4 := by decide

lemma segB_decomp : segB.data = '\n' :: prependLines LBlines sp4 := by decide

lemma segC_decomp : segC.data = '\n' :: prependLines LClines sp4 := by decide

lemma segD_decomp : segD.data = '\n' :: prependLines LDlines sp4 := by decide

set_option maxRecDepth 20000 in
lemma promptRaw_data (t b d : String) :
    (promptRaw t b d).data = rawChars t.data b.data d.data := by
  have e : (promptRaw t b d).data
      = segA.data ++ (t.data ++ (segB.data ++ (b.data
          ++ (segC.data ++ (d.data ++ segD.data))))) := by
    simp [promptRaw, String.data_append]
  rw [e, segA_decomp, segB_decomp, segC_decomp, segD_decomp]
  simp only [rawChars, prependLines, LAlines, LBlines, LClines, LDlines, List.foldr,
    List.append_assoc, List.cons_append, List.nil_append, List.append_nil]

lemma noNL_LA : ∀ l ∈ LAlines, '\n' ∉ l := by decide

lemma noNL_LB : ∀ l ∈ LBlines, '\n' ∉ l := by decide

lemma noNL_LC : ∀ l ∈ LClines, '\n' ∉ l := by decide

lemma noNL_LD : ∀ l ∈ LDlines, '\n' ∉ l := by decide

lemma noNL_sp4_append (v : List Char) (hv : '\n' ∉ v) : '\n' ∉ sp4 ++ v := by
  intro hm
  rcases List.mem_append.mp hm with h | h
  · exact absurd h (by decide)
  · exact hv h

lemma rawChars_split (t b d : List Char)
    (ht : '\n' ∉ t) (hb : '\n' ∉ b) (hd : '\n' ∉ d) :
    splitLines (rawChars t b d)
      = LAlines ++ (sp4 ++ t) :: (LBlines ++ (sp4 ++ b)
          :: (LClines ++ (sp4 ++ d) :: (LDlines ++ [sp4]))) := by
  unfold rawChars
  rw [splitLines_prependLines LAlines _ noNL_LA,
    splitLines_line_cons (sp4 ++ t) _ (noNL_sp4_append t ht),
    splitLines_prependLines LBlines _ noNL_LB,
    splitLines_line_cons (sp4 ++ b) _ (noNL_sp4_append b hb),
    splitLines_prependLines LClines _ noNL_LC,
    splitLines_line_cons (sp4 ++ d) _ (noNL_sp4_append d hd),
    splitLines_prependLines LDlines _ noNL_LD]
  rfl

set_option maxRecDepth 20000 in
lemma pre_decomp :
    promptPre.data
      = prependLines ((LAlines.map normLine).map (stripMargin sp4)) [] := by decide

lemma mid1_decomp :
    promptMid1.data
      = '\n' :: prependLines ((LBlines.map normLine).map (stripMargin sp4)) [] := by decide

lemma mid2_decomp :
    promptMid2.data
      = '\n' :: prependLines ((LClines.map normLine).map (stripMargin sp4)) [] := by decide

lemma suf_decomp :
    promptSuf.data
      = '\n' :: prependLines ((LDlines.map normLine).map (stripMargin sp4)) [] := by decide

lemma normLine_sp4 : normLine sp4 = [] := by decide

lemma strip_norm_sp4 : stripMargin sp4 (normLine sp4) = [] := by decide

lemma normLine_of_not_wsOnly (l : List Char) (h : wsOnlyLine l = false) :
    normLine l = l := by
  rw [normLine, if_neg]
  rw [h]
  exact Bool.false_ne_true

lemma wsOnly_sp4_append_false (v : List Char) (c : Char) (hc : c ∈ v)
    (hcw : isWsChar c = false) : wsOnlyLine (sp4 ++ v) = false := by
  have hall : (sp4 ++ v).all isWsChar = false := by
    rw [List.all_eq_false]
    exact ⟨c, List.mem_append_right sp4 hc, by rw [hcw]; exact Bool.false_ne_true⟩
  rw [wsOnlyLine, hall, Bool.and_false]

/-- Interpolated values survive normalization and margin stripping intact. -/
lemma strip_norm_value (v : List Char)
    (hv : v = [] ∨ ∃ c ∈ v, isWsChar c = false) :
    stripMargin sp4 (normLine (sp4 ++ v)) = v := by
  rcases hv with rfl | ⟨c, hc, hcw⟩
  · rw [List.append_nil, normLine_sp4, stripMargin_nil]
  · rw [normLine_of_not_wsOnly _ (wsOnly_sp4_append_false v c hc hcw),
      stripMargin_append]

/-- Every normalized interpolated line is empty or starts with the margin. -/
lemma norm_value_prop (v : List Char) :
    ((normLine (sp4 ++ v)).isEmpty || startsWithL sp4 (normLine (sp4 ++ v))) = true := by
  rw [normLine]
  by_cases h : wsOnlyLine (sp4 ++ v) = true
  · simp [h]
  · rw [if_neg h]
    rw [startsWithL_append, Bool.or_true]

/-- All indents of lines that are empty-or-margin-led extend the margin. -/
lemma indents_all (L : List (List Char))
    (hL : ∀ l ∈ L, (l.isEmpty || startsWithL sp4 l) = true) :
    ∀ i ∈ indentsOf L, startsWithL sp4 i = true := by
  intro i hi
  rcases List.mem_map.mp hi with ⟨l, hlf, rfl⟩
  rcases List.mem_filter.mp hlf with ⟨hlL, hlne⟩
  rcases Bool.or_eq_true_iff.mp (hL l hlL) with h | h
  · rw [h] at hlne
    exact absurd hlne (by decide)
  · rcases (startsWithL_iff _ _).mp h with ⟨w, rfl⟩
    rw [takeWhile_append_of_all _ _ _ (by decide)]
    exact startsWithL_append sp4 _

lemma lines1_head_structure (t b d : String) :
    dedentLines1 (promptRaw t b d)
      = LAlines.map normLine
        ++ (splitLines ((sp4 ++ t.data) ++ '\n' :: prependLines LBlines
            ((sp4 ++ b.data) ++ '\n' :: prependLines LClines
              ((sp4 ++ d.data) ++ '\n' :: prependLines LDlines sp4)))).map normLine := by
  rw [dedentLines1, promptRaw_data]
  unfold rawChars
  rw [splitLines_prependLines LAlines _ noNL_LA, List.map_append]

set_option maxRecDepth 20000 in
lemma youAre_mem_lines1 (t b d : String) :
    youAreLine ∈ dedentLines1 (promptRaw t b d) := by
  rw [lines1_head_structure]
  apply List.mem_append_left
  decide

set_option maxRecDepth 20000 in
lemma sp4_mem_indents (t b d : String) :
    sp4 ∈ indentsOf (dedentLines1 (promptRaw t b d)) := by
  have hy := youAre_mem_lines1 t b d
  rw [indentsOf]
  have h1 : youAreLine ∈ (dedentLines1 (promptRaw t b d)).filter (fun l => !l.isEmpty) :=
    List.mem_filter.mpr ⟨hy, by decide⟩
  have h2 := List.mem_map_of_mem (fun l => l.takeWhile isWsChar) h1
  have h3 : youAreLine.takeWhile isWsChar = sp4 := by decide
  simpa [h3] using h2

/-- Whatever the interpolated values, the margin is a prefix of four spaces. -/
lemma margin_starts_sp4 (t b d : String) :
    startsWithL (dedentMargin (dedentLines1 (promptRaw t b d))) sp4 = true := by
  have hmem := sp4_mem_indents t b d
  rcases hI : indentsOf (dedentLines1 (promptRaw t b d)) with _ | ⟨i0, is⟩
  · rw [hI] at hmem
    exact absurd hmem (List.not_mem_nil _)
  · rw [hI] at hmem
    simp only [dedentMargin, hI]
    exact foldl_sharedStart_isCommon i0 is sp4 hmem

lemma lines1_structure (t b d : String)
    (ht : '\n' ∉ t.data) (hb : '\n' ∉ b.data) (hd : '\n' ∉ d.data) :
    dedentLines1 (promptRaw t b d)
      = LAlines.map normLine
        ++ normLine (sp4 ++ t.data) :: (LBlines.map normLine
        ++ normLine (sp4 ++ b.data) :: (LClines.map normLine
        ++ normLine (sp4 ++ d.data) :: (LDlines.map normLine ++ [normLine sp4]))) := by
  rw [dedentLines1, promptRaw_data, rawChars_split t.data b.data d.data ht hb hd]
  simp only [List.map_append, List.map_cons, List.map_nil]

set_option maxRecDepth 20000 in
lemma lines1_all_prop (t b d : String)
    (ht : '\n' ∉ t.data) (hb : '\n' ∉ b.data) (hd : '\n' ∉ d.data) :
    ∀ l ∈ dedentLines1 (promptRaw t b d), (l.isEmpty || startsWithL sp4 l) = true := by
  have hA : ∀ l ∈ LAlines.map normLine, (l.isEmpty || startsWithL sp4 l) = true := by
    decide
  have hB : ∀ l ∈ LBlines.map normLine, (l.isEmpty || startsWithL sp4 l) = true := by
    decide
  have hC : ∀ l ∈ LClines.map normLine, (l.isEmpty || startsWithL sp4 l) = true := by
    decide
  have hD : ∀ l ∈ LDlines.map normLine, (l.isEmpty || startsWithL sp4 l) = true := by
    decide
  rw [lines1_structure t b d ht hb hd]
  intro l hl
  rcases List.mem_append.mp hl with h | h
  · exact hA l h
  rcases List.mem_cons.mp h with rfl | h
  · exact norm_value_prop t.data
  rcases List.mem_append.mp h with h | h
  · exact hB l h
  rcases List.mem_cons.mp h with rfl | h
  · exact norm_value_prop b.data
  rcases List.mem_append.mp h with h | h
  · exact hC l h
  rcases List.mem_cons.mp h with rfl | h
  · exact norm_value_prop d.data
  rcases List.mem_append.mp h with h | h
  · exact hD l h
  rcases List.mem_singleton.mp h with rfl
  rw [normLine_sp4]
  rfl

/-- For single-line values the margin is exactly the four-space indent. -/
lemma margin_eq_sp4_safe (t b d : String)
    (ht : '\n' ∉ t.data) (hb : '\n' ∉ b.data) (hd : '\n' ∉ d.data) :
    dedentMargin (dedentLines1 (promptRaw t b d)) = sp4 := by
  have hup := margin_starts_sp4 t b d
  have hall := indents_all _ (lines1_all_prop t b d ht hb hd)
  have hmem := sp4_mem_indents t b d
  rcases hI : indentsOf (dedentLines1 (promptRaw t b d)) with _ | ⟨i0, is⟩
  · rw [hI] at hmem
    exact absurd hmem (List.not_mem_nil _)
  · rw [hI] at hall
    simp only [dedentMargin, hI] at hup ⊢
    have hlow : startsWithL sp4 (is.foldl sharedStart i0) = true :=
      foldl_sharedStart_lower sp4 i0 is (hall i0 (List.mem_cons_self i0 is))
        (fun i hi => hall i (List.mem_cons_of_mem i0 hi))
    exact (startsWithL_antisymm sp4 _ hlow hup).symm

lemma build_prompt_def (t b d : String) :
    build_prompt t b d = dedent (promptRaw t b d) := rfl

lemma dedent_data (text : String) :
    (dedent text).data
      = joinLines (if (dedentMargin (dedentLines1 text)).isEmpty then dedentLines1 text
          else (dedentLines1 text).map (stripMargin (dedentMargin (dedentLines1 text)))) :=
  rfl

set_option maxHeartbeats 2000000 in
set_option maxRecDepth 20000 in
/-- For single-line, not-whitespace-only values, `build_prompt` is exactly
the fixed dedented template with the values inserted verbatim. -/
lemma build_prompt_safe_eq (t b d : String)
    (ht : promptSafe t) (hb : promptSafe b) (hd : promptSafe d) :
    build_prompt t b d
      = promptPre ++ t ++ promptMid1 ++ b ++ promptMid2 ++ d ++ promptSuf := by
  apply String.ext
  have hR : (promptPre ++ t ++ promptMid1 ++ b ++ promptMid2 ++ d ++ promptSuf).data
      = promptPre.data ++ (t.data ++ (promptMid1.data ++ (b.data
          ++ (promptMid2.data ++ (d.data ++ promptSuf.data))))) := by
    simp [String.data_append]
  rw [hR, pre_decomp, mid1_decomp, mid2_decomp, suf_decomp]
  rw [build_prompt_def, dedent_data]
  rw [margin_eq_sp4_safe t b d ht.1 hb.1 hd.1]
  rw [if_neg (by decide : ¬ ((sp4 : List Char).isEmpty = true))]
  rw [lines1_structure t b d ht.1 hb.1 hd.1]
  simp only [List.map_append, List.map_cons, List.map_nil]
  rw [strip_norm_value t.data ht.2, strip_norm_value b.data hb.2,
    strip_norm_value d.data hd.2, strip_norm_sp4]
  rw [joinLines_append _ _ (by simp), joinLines_cons_of_ne_nil _ _ (by simp),
    joinLines_append _ _ (by simp), joinLines_cons_of_ne_nil _ _ (by simp),
    joinLines_append _ _ (by simp), joinLines_cons_of_ne_nil _ _ (by simp),
    joinLines_append _ _ (by simp)]
  rw [show joinLines [([] : List Char)] = ([] : List Char) from rfl]
  rw [prependLines_eq_append ((LAlines.map normLine).map (stripMargin sp4)),
    prependLines_eq_append ((LBlines.map normLine).map (stripMargin sp4)),
    prependLines_eq_append ((LClines.map normLine).map (stripMargin sp4))]
  simp only [List.append_assoc, List.cons_append]

/-- The four markdown headings survive dedenting whatever the margin is. -/
lemma build_prompt_contains_heading (t b d : String) (h : List Char)
    (hmem : (sp4 ++ h) ∈ LAlines) (hnw : wsOnlyLine (sp4 ++ h) = false) :
    containsL (build_prompt t b d).data h := by
  rw [build_prompt_def, dedent_data]
  have hline : (sp4 ++ h) ∈ dedentLines1 (promptRaw t b d) := by
    rw [lines1_head_structure]
    apply List.mem_append_left
    have hmm := List.mem_map_of_mem normLine hmem
    rwa [normLine_of_not_wsOnly _ hnw] at hmm
  have hpre := margin_starts_sp4 t b d
  by_cases hm : (dedentMargin (dedentLines1 (promptRaw t b d))).isEmpty = true
  · rw [if_pos hm]
    refine containsL_trans _ _ _ (joinLines_containsL _ _ hline) ?_
    exact ⟨sp4, [], by rw [List.append_nil]⟩
  · rw [if_neg hm]
    rcases (startsWithL_iff _ _).mp hpre with ⟨w, hw⟩
    have hline2 := List.mem_map_of_mem
      (stripMargin (dedentMargin (dedentLines1 (promptRaw t b d)))) hline
    have hstrip : stripMargin (dedentMargin (dedentLines1 (promptRaw t b d)))
        (sp4 ++ h) = w ++ h := by
      rw [hw, List.append_assoc, stripMargin_append]
    refine containsL_trans _ _ _ (joinLines_containsL _ _ hline2) ?_
    rw [hstrip]
    exact ⟨w, [], by rw [List.append_nil]⟩

lemma containsB_of_containsL (big small : List Char) (h : containsL big small) :
    containsB small big = true := by
  rcases h with ⟨u, v, rfl⟩
  induction u with
  | nil =>
    cases hbv : small ++ v with
    | nil =>
      rcases List.append_eq_nil.mp hbv with ⟨rfl, rfl⟩
      rfl
    | cons c tl =>
      show containsB small (small ++ v) = true
      rw [hbv]
      show (startsWithL small (c :: tl) || containsB small tl) = true
      rw [← hbv, startsWithL_append, Bool.true_or]
  | cons c u ih =>
    show (startsWithL small (c :: (u ++ small ++ v))
        || containsB small (u ++ small ++ v)) = true
    rw [ih, Bool.or_true]

set_option maxHeartbeats 2000000 in
set_option maxRecDepth 20000 in
/-- C8: the claim fails as stated.  For the title `"A\n      B"` the prompt
returned by `build_prompt` does not contain the title at all: dedenting
strips the computed four-space margin from the second line of the title. -/
theorem build_prompt_embed_counterexample :
    ¬ strContains (build_prompt "A\n      B" "" "") "A\n      B" := by
  intro h
  exact absurd (containsB_of_containsL _ _ h) (by decide)

set_option maxRecDepth 20000 in
/-- C8 (amended): for every title, body and diff text that span a single line
and are each empty or contain a non-whitespace character, `build_prompt`
returns the fixed dedented instruction template with the three values
inserted verbatim; for arbitrary inputs the four literal Markdown headings
still occur in the result; and the function is pure, so equal inputs yield
the identical prompt string. -/
theorem build_prompt_template (t b d : String) :
    (promptSafe t → promptSafe b → promptSafe d →
      build_prompt t b d
        = promptPre ++ t ++ promptMid1 ++ b ++ promptMid2 ++ d ++ promptSuf) ∧
    strContains (build_prompt t b d) "## Improved PR Description" ∧
    strContains (build_prompt t b d) "## Summary" ∧
    strContains (build_prompt t b d) "## Suggested Tests" ∧
    strContains (build_prompt t b d) "## Notes" ∧
    (∀ t2 b2 d2, t = t2 → b = b2 → d = d2 →
      build_prompt t b d = build_prompt t2 b2 d2) := by
  refine ⟨fun ht hb hd => build_prompt_safe_eq t b d ht hb hd, ?_, ?_, ?_, ?_, ?_⟩
  · exact build_prompt_contains_heading t b d
      "## Improved PR Description".data (by decide) (by decide)
  · exact build_prompt_contains_heading t b d "## Summary".data (by decide) (by decide)
  · exact build_prompt_contains_heading t b d
      "## Suggested Tests".data (by decide) (by decide)
  · exact build_prompt_contains_heading t b d "## Notes".data (by decide) (by decide)
  · rintro t2 b2 d2 rfl rfl rfl
    rfl

/-- Witness for C8 at concrete single-line values (the body empty). -/
theorem build_prompt_template_witness :
    promptSafe "Fix bug" ∧ promptSafe "" ∧ promptSafe "+x" ∧
    build_prompt "Fix bug" "" "+x"
      = promptPre ++ "Fix bug" ++ promptMid1 ++ "" ++ promptMid2 ++ "+x" ++ promptSuf := by
  have h1 : promptSafe "Fix bug" := ⟨by decide, Or.inr (by decide)⟩
  have h2 : promptSafe "" := ⟨by decide, Or.inl (by decide)⟩
  have h3 : promptSafe "+x" := ⟨by decide, Or.inr (by decide)⟩
  exact ⟨h1, h2, h3, (build_prompt_template "Fix bug" "" "+x").1 h1 h2 h3⟩

/-! Claim theorems about the process model. -/

/-- Any falsy variable (unset, or set to the empty string) makes the script
stop at the module-level check. -/
lemma runScript_env_fail (env : EnvVars) (net : Network)
    (h : pyTruthy env.GITHUB_REPOSITORY = false ∨ pyTruthy env.GITHUB_TOKEN = false ∨
      pyTruthy env.PR_NUMBER = false ∨ pyTruthy env.OPENROUTER_API_KEY = false) :
    runScript env net = ⟨[envMissingMsg], [], 1⟩ := by
  unfold runScript
  rcases h with h | h | h | h <;> simp [h]

/-- An environment in which all four variables are set and non-empty makes
the script proceed into `main`. -/
lemma runScript_env_ok (env : EnvVars) (net : Network)
    (h1 : pyTruthy env.GITHUB_REPOSITORY = true) (h2 : pyTruthy env.GITHUB_TOKEN = true)
    (h3 : pyTruthy env.PR_NUMBER = true) (h4 : pyTruthy env.OPENROUTER_API_KEY = true) :
    runScript env net = mainRun (env.PR_NUMBER.getD "") net := by
  unfold runScript
  simp [h1, h2, h3, h4]

/-- C5: if any one of the four required environment variables is absent, the
process prints the missing-configuration diagnostic and exits with status 1,
attempting no network call. -/
theorem env_missing_exits_before_network (env : EnvVars) (net : Network)
    (h : env.GITHUB_REPOSITORY = none ∨ env.GITHUB_TOKEN = none ∨
      env.PR_NUMBER = none ∨ env.OPENROUTER_API_KEY = none) :
    runScript env net = ⟨[envMissingMsg], [], 1⟩ := by
  refine runScript_env_fail env net ?_
  rcases h with h | h | h | h <;> simp [h, pyTruthy]

/-- Witness for C5: the repository variable is unset, so the run is exactly
the diagnostic plus exit 1 and the attempted-call list is empty. -/
theorem env_missing_exits_before_network_witness :
    ((⟨none, some "t", some "1", some "k"⟩ : EnvVars).GITHUB_REPOSITORY = none ∨
      (⟨none, some "t", some "1", some "k"⟩ : EnvVars).GITHUB_TOKEN = none ∨
      (⟨none, some "t", some "1", some "k"⟩ : EnvVars).PR_NUMBER = none ∨
      (⟨none, some "t", some "1", some "k"⟩ : EnvVars).OPENROUTER_API_KEY = none) ∧
    runScript ⟨none, some "t", some "1", some "k"⟩ okNet = ⟨[envMissingMsg], [], 1⟩ :=
  ⟨Or.inl rfl, env_missing_exits_before_network _ okNet (Or.inl rfl)⟩

/-- C10: an environment variable that is set but empty is treated exactly as
an absent one: the diagnostic is printed, the exit status is 1, no network
call is attempted, and the behaviour is identical to that of any environment
with an unset variable. -/
theorem env_empty_treated_as_missing (env : EnvVars) (net : Network)
    (h : env.GITHUB_REPOSITORY = some "" ∨ env.GITHUB_TOKEN = some "" ∨
      env.PR_NUMBER = some "" ∨ env.OPENROUTER_API_KEY = some "") :
    runScript env net = ⟨[envMissingMsg], [], 1⟩ ∧
    ∀ env2 : EnvVars, (env2.GITHUB_REPOSITORY = none ∨ env2.GITHUB_TOKEN = none ∨
      env2.PR_NUMBER = none ∨ env2.OPENROUTER_API_KEY = none) →
      runScript env net = runScript env2 net := by
  have hfail : runScript env net = ⟨[envMissingMsg], [], 1⟩ := by
    refine runScript_env_fail env net ?_
    rcases h with h | h | h | h <;> simp [h, pyTruthy]
  refine ⟨hfail, ?_⟩
  intro env2 h2
  rw [hfail]
  symm
  refine runScript_env_fail env2 net ?_
  rcases h2 with h2 | h2 | h2 | h2 <;> simp [h2, pyTruthy]

/-- Witness for C10: the token variable is set to the empty string. -/
theorem env_empty_treated_as_missing_witness :
    ((⟨some "o/r", some "", some "1", some "k"⟩ : EnvVars).GITHUB_REPOSITORY = some "" ∨
      (⟨some "o/r", some "", some "1", some "k"⟩ : EnvVars).GITHUB_TOKEN = some "" ∨
      (⟨some "o/r", some "", some "1", some "k"⟩ : EnvVars).PR_NUMBER = some "" ∨
      (⟨some "o/r", some "", some "1", some "k"⟩ : EnvVars).OPENROUTER_API_KEY = some "") ∧
    (runScript ⟨some "o/r", some "", some "1", some "k"⟩ okNet = ⟨[envMissingMsg], [], 1⟩ ∧
      ∀ env2 : EnvVars, (env2.GITHUB_REPOSITORY = none ∨ env2.GITHUB_TOKEN = none ∨
        env2.PR_NUMBER = none ∨ env2.OPENROUTER_API_KEY = none) →
        runScript ⟨some "o/r", some "", some "1", some "k"⟩ okNet = runScript env2 okNet) :=
  ⟨Or.inr (Or.inl rfl),
    env_empty_treated_as_missing _ okNet (Or.inr (Or.inl rfl))⟩

/-- C7: with all four variables set, the process exits with code 0 exactly
when all four HTTP calls succeed; an `HTTPError` on whichever call is reached
first aborts with exit code 1 and the printed status code and response body,
and any other exception aborts with exit code 1 and its printed message. -/
theorem process_exit_codes (env : EnvVars) (net : Network)
    (h1 : pyTruthy env.GITHUB_REPOSITORY = true) (h2 : pyTruthy env.GITHUB_TOKEN = true)
    (h3 : pyTruthy env.PR_NUMBER = true) (h4 : pyTruthy env.OPENROUTER_API_KEY = true) :
    (((∃ pm, net.prMeta = .ok pm) ∧ (∃ fs, net.prFiles = .ok fs) ∧
        (∃ r, net.chat = .ok r) ∧ (∃ p, net.comment = .ok p)) →
      (runScript env net).exitCode = 0) ∧
    (∀ st b, net.prMeta = .httpError st b →
      (runScript env net).exitCode = 1 ∧ httpErrorMsg st b ∈ (runScript env net).msgs) ∧
    (∀ e, net.prMeta = .exn e →
      (runScript env net).exitCode = 1 ∧ genErrorMsg e ∈ (runScript env net).msgs) ∧
    (∀ pm, net.prMeta = .ok pm →
      (∀ st b, net.prFiles = .httpError st b →
        (runScript env net).exitCode = 1 ∧ httpErrorMsg st b ∈ (runScript env net).msgs) ∧
      (∀ e, net.prFiles = .exn e →
        (runScript env net).exitCode = 1 ∧ genErrorMsg e ∈ (runScript env net).msgs) ∧
      (∀ fs, net.prFiles = .ok fs →
        (∀ st b, net.chat = .httpError st b →
          (runScript env net).exitCode = 1 ∧ httpErrorMsg st b ∈ (runScript env net).msgs) ∧
        (∀ e, net.chat = .exn e →
          (runScript env net).exitCode = 1 ∧ genErrorMsg e ∈ (runScript env net).msgs) ∧
        (∀ r, net.chat = .ok r →
          (∀ st b, net.comment = .httpError st b →
            (runScript env net).exitCode = 1 ∧
              httpErrorMsg st b ∈ (runScript env net).msgs) ∧
          (∀ e, net.comment = .exn e →
            (runScript env net).exitCode = 1 ∧
              genErrorMsg e ∈ (runScript env net).msgs)))) := by
  rw [runScript_env_ok env net h1 h2 h3 h4]
  rcases net with ⟨m, f, c, p⟩
  cases m <;> cases f <;> cases c <;> cases p <;>
    simp [mainRun]

/-- Witness for C7: a fully successful mocked pipeline exits with code 0. -/
theorem process_exit_codes_witness :
    (runScript ⟨some "o/r", some "t", some "1", some "k"⟩ okNet).exitCode = 0 := by
  have h := process_exit_codes ⟨some "o/r", some "t", some "1", some "k"⟩ okNet
    (by decide) (by decide) (by decide) (by decide)
  exact h.1 ⟨⟨_, rfl⟩, ⟨_, rfl⟩, ⟨_, rfl⟩, ⟨_, rfl⟩⟩

/-- C6: when the decoded model response lacks the path
`choices[0].message.content`, the extraction does not fail but yields the
serialized raw response, and in any run reaching the comment stage that
serialization appears verbatim inside the posted comment body. -/
theorem malformed_response_degrades (res : Json) (h : extractContent res = none) :
    call_deepseek_extract res = jsonDumps res ∧
    ∀ (env : EnvVars) (net : Network) pm fs,
      pyTruthy env.GITHUB_REPOSITORY = true → pyTruthy env.GITHUB_TOKEN = true →
      pyTruthy env.PR_NUMBER = true → pyTruthy env.OPENROUTER_API_KEY = true →
      net.prMeta = .ok pm → net.prFiles = .ok fs → net.chat = .ok res →
      ∃ body, NetCall.postComment body ∈ (runScript env net).calls ∧
        ∃ pre post, body = pre ++ jsonDumps res ++ post := by
  have hext : call_deepseek_extract res = jsonDumps res := by
    simp [call_deepseek_extract, h]
  refine ⟨hext, ?_⟩
  intro env net pm fs h1 h2 h3 h4 hm hf hc
  rw [runScript_env_ok env net h1 h2 h3 h4]
  rcases net with ⟨m, f, c, p⟩
  cases hm; cases hf; cases hc
  refine ⟨commentBody (pm.title.getD "") (call_deepseek_extract res), ?_, ?_⟩
  · cases p <;> simp [mainRun]
  · rw [hext]
    refine ⟨"## ðŸ¤– CI/CD Assistant Review\n\n**PR:** " ++ pm.title.getD ""
        ++ "\n\n**AI analysis:**\n\n",
      "\n\n*(This comment was generated automatically by the repository"
        ++ sq ++ "s CI/CD Assistant)*", ?_⟩
    simp [commentBody, String.append_assoc]

/-- Witness for C6 at the concrete malformed response `badRes`. -/
theorem malformed_response_degrades_witness :
    extractContent badRes = none ∧
    (call_deepseek_extract badRes = jsonDumps badRes ∧
      ∀ (env : EnvVars) (net : Network) pm fs,
        pyTruthy env.GITHUB_REPOSITORY = true → pyTruthy env.GITHUB_TOKEN = true →
        pyTruthy env.PR_NUMBER = true → pyTruthy env.OPENROUTER_API_KEY = true →
        net.prMeta = .ok pm → net.prFiles = .ok fs → net.chat = .ok badRes →
        ∃ body, NetCall.postComment body ∈ (runScript env net).calls ∧
          ∃ pre post, body = pre ++ jsonDumps badRes ++ post) :=
  ⟨rfl, malformed_response_degrades badRes rfl⟩

set_option maxHeartbeats 1000000 in
set_option maxRecDepth 10000 in
example : build_prompt "T" "B" "D"
    = "\nYou are a helpful CI assistant. Given a pull request title, description and code diff, do the following:\n\n1) Produce an improved PR description (clear, 2-4 sentences).\n2) Provide a short human-readable summary of the code changes (3-6 sentences).\n3) Suggest tests / checks that appear to be missing or desirable (bullet list).\n4) Provide any quick code quality notes (possible bugs, style issues, risky changes).\n\nReply in Markdown. Use headings:\n## Improved PR Description\n## Summary\n## Suggested Tests\n## Notes\n\nPR Title:\nT\n\nPR Description:\nB\n\nDiff (truncated):\nD\n\nIMPORTANT: Keep the answer concise and practical.\n" := by
  decide

end PRInsight
